import Mathlib

/-!
Verification of the `rust-ccm-binding` repository against its natural-language
specification.  The Rust sources are shallowly embedded below: pure functions
become Lean functions, stateful methods become explicit state-passing
functions, machine integers (`i32`) become `Int` with explicit two's-complement
wrapping where overflow matters, and fallible code returns `Except`.
-/

namespace CcmBinding

/-! ## Process Runner: run-id counter (src/ccm_cli.rs, `LoggedCmd`)

`LoggedCmd::new` initialises `run_id: AtomicI32::new(1)`; every
`run_command` call performs `self.run_id.fetch_add(1, SeqCst)` and uses the
*returned* (pre-increment) value as its run id.  `fetch_add` on `AtomicI32`
wraps around on overflow, which we model with two's-complement wrapping on
`Int`.  An atomic fetch-and-add linearises: any interleaving of `N`
concurrent calls is some sequential order of `N` fetch-and-adds on the
counter, which is exactly the model below. -/

/-- Two's-complement wrap of an integer into the `i32` range. -/
def wrap32 (x : Int) : Int := (x + 2 ^ 31) % 2 ^ 32 - 2 ^ 31

/-- `AtomicI32::fetch_add(1, SeqCst)`: returns the previous value, stores the
wrapped successor. -/
def fetchAdd1 (c : Int) : Int × Int := (c, wrap32 (c + 1))

/-- The run ids handed out by `n` successive `run_command` calls, starting
from counter value `c` (src/ccm_cli.rs lines 61-63). -/
def runIdsFrom : Nat → Int → List Int
  | 0, _ => []
  | n + 1, c => (fetchAdd1 c).1 :: runIdsFrom n (fetchAdd1 c).2

/-- Run ids of `n` calls on a fresh `LoggedCmd` (counter starts at 1,
src/ccm_cli.rs line 40). -/
def runIds (n : Nat) : List Int := runIdsFrom n 1

/-! ## Process Runner: `run_command` (src/ccm_cli.rs lines 55-177)

The log sink (`self.file : Option<Arc<Mutex<File>>>`) is modeled as
`Option Unit`; the external world is summarised by whether the spawn
succeeded, and the outcome of `child.wait()` (`Ok` with an optional exit
code — `none` models a signal-killed child whose `status.code()` is `None` —
or `Err` with the OS error's display text).  The function returns the
classification result together with the `env`/`started`/`exited` log lines
it writes; the concurrently drained `stdout`/`stderr` lines are not modeled
(their interleaving is unspecified and irrelevant to the classification).
A Rust panic is modeled as the outer `Except.error` carrying the panic
message. -/

/-- `format!("{:15}", s)`: left-aligned, space-padded to width 15. -/
def padTag (s : String) : String :=
  s ++ String.mk (List.replicate (15 - s.length) ' ')

/-- Rust's `slice::join(sep)`: elements interleaved with the separator. -/
def joinSep (sep : String) : List String → String
  | [] => ""
  | [x] => x
  | x :: xs => x ++ sep ++ joinSep sep xs

/-- src/ccm_cli.rs lines 29-33. -/
structure RunOptions where
  env : List (String × String)
  allow_failure : Option Bool

/-- The error cases `run_command` can return (io::Error values in the
source): a clean non-zero exit (line 153), a failed `child.wait()`
(line 174), or a failed spawn (line 90). -/
inductive RunError where
  | commandFailed (status : Option Int)
  | waitFailed (msg : String)
  | spawnFailed
deriving DecidableEq

/-- src/ccm_cli.rs lines 68-73: `allow_failure` starts `false` and is
overwritten by `opts.allow_failure` when both are present. -/
def effectiveAllowFailure (opts : Option RunOptions) : Bool :=
  match opts with
  | some o =>
    match o.allow_failure with
    | some allow => allow
    | none => false
  | none => false

/-- src/ccm_cli.rs lines 74-87: one log line per environment override,
emitted before spawning. -/
def envLogLines (run_id : Int) (opts : Option RunOptions) : List String :=
  match opts with
  | some o =>
    o.env.map (fun kv =>
      padTag ("env[" ++ toString run_id ++ "]") ++ " -> " ++ kv.1 ++ "=" ++ kv.2)
  | none => []

/-- `LoggedCmd::run_command` (src/ccm_cli.rs lines 55-177).  Returns the
result — `Except.error` outside models a panic, `Except.error` inside an
`io::Error` return — paired with the log lines written. -/
def run_command (file : Option Unit) (command : String) (args : List String)
    (opts : Option RunOptions) (run_id : Int) (spawnOk : Bool)
    (waitResult : Except String (Option Int)) :
    Except String (Except RunError (Option Int)) × List String :=
  match file with
  | none =>
    -- line 67: `self.file.as_ref().unwrap()` on `None` panics
    (.error "called `Option::unwrap()` on a `None` value", [])
  | some _ =>
    let allow_failure := effectiveAllowFailure opts
    let envLines := envLogLines run_id opts
    if spawnOk = false then
      -- line 90: `cmd.spawn()?` propagates the io::Error
      (.ok (.error .spawnFailed), envLines)
    else
      let startedLine :=
        padTag ("started[" ++ toString run_id ++ "]") ++ " -> " ++ command ++ " " ++
          joinSep " " args
      match waitResult with
      | .error e =>
        (.ok (.error (.waitFailed e)),
         envLines ++
           [startedLine,
            padTag ("exited[" ++ toString run_id ++ "]") ++
              " -> failed to wait on child process: = " ++ e])
      | .ok status =>
        let exitedLine :=
          match status with
          | some code =>
            padTag ("exited[" ++ toString run_id ++ "]") ++ " -> status = " ++ toString code
          | none => padTag ("exited[" ++ toString run_id ++ "]") ++ " -> status = unknown"
        let log := envLines ++ [startedLine, exitedLine]
        -- lines 152-158: `if !allow_failure && !status.success()`
        if allow_failure = false ∧ status ≠ some 0 then
          (.ok (.error (.commandFailed status)), log)
        else (.ok (.ok status), log)

/-! ## Structured configuration tree (src/cluster_config.rs)

`ScyllaConfig` is a recursive value tree.  `f64` floats are modeled by
their display string (their numeric behaviour is irrelevant to the claims
checked here).  Rust's `HashMap<String, _>` is modeled as an association
list; the `HashMap` invariant (no duplicate keys) becomes an explicit
side condition where a theorem needs it.  Where the source sorts the key
vector and then looks each key up (`to_flat_string`), the model sorts the
entry list by key, which agrees on duplicate-free association lists. -/

inductive ScyllaConfig where
  | null
  | bool (b : Bool)
  | int (i : Int)
  | float (r : String)
  | string (s : String)
  | list (l : List ScyllaConfig)
  | map (m : List (String × ScyllaConfig))

/-- Rust `char` escaping as it appears inside `format!("{:?}", ..)` output
for strings, modeled for the escapes that have a short form; exotic
control/unicode escapes are not modeled. -/
def escapeDebugChar (c : Char) : String :=
  if c = '"' then "\\\""
  else if c = '\\' then "\\\\"
  else if c = '\n' then "\\n"
  else if c = '\t' then "\\t"
  else if c = '\r' then "\\r"
  else String.singleton c

/-- Debug-escape a whole string. -/
def escapeDebug (s : String) : String := String.join (s.data.map escapeDebugChar)

mutual

/-- `format!("{:?}", cfg)` for the derived `Debug` of `ScyllaConfig`
(src/cluster_config.rs line 5).  Maps iterate in model (association-list)
order, standing for `HashMap`'s unspecified iteration order. -/
def debugRepr : ScyllaConfig → String
  | .null => "Null"
  | .bool b => "Bool(" ++ toString b ++ ")"
  | .int i => "Int(" ++ toString i ++ ")"
  | .float r => "Float(" ++ r ++ ")"
  | .string s => "String(\"" ++ escapeDebug s ++ "\")"
  | .list l => "List([" ++ joinSep ", " (debugReprList l) ++ "])"
  | .map m => "Map(\x7b" ++ joinSep ", " (debugReprPairs m) ++ "\x7d)"

/-- Debug strings of the elements of a list, in order. -/
def debugReprList : List ScyllaConfig → List String
  | [] => []
  | x :: xs => debugRepr x :: debugReprList xs

/-- Debug strings of the `"key": value` entries of a map, in order. -/
def debugReprPairs : List (String × ScyllaConfig) → List String
  | [] => []
  | (k, v) :: rest => ("\"" ++ escapeDebug k ++ "\": " ++ debugRepr v) :: debugReprPairs rest

end

/-- The `serde_yaml::Value` interchange type: null, bool, number (integer
or float, the latter again modeled by its display string), string,
sequence, mapping (ordered, as `serde_yaml::Mapping` preserves order), or
a tagged value (the variant `from_yaml`'s catch-all arm rejects). -/
inductive YamlValue where
  | null
  | bool (b : Bool)
  | intNumber (i : Int)
  | floatNumber (r : String)
  | string (s : String)
  | sequence (l : List YamlValue)
  | mapping (m : List (YamlValue × YamlValue))
  | tagged

mutual

/-- `ScyllaConfig::to_yaml` (src/cluster_config.rs lines 17-38). -/
def to_yaml : ScyllaConfig → YamlValue
  | .null => .null
  | .bool b => .bool b
  | .int i => .intNumber i
  | .float r => .floatNumber r
  | .string s => .string s
  | .list l => .sequence (to_yamlList l)
  | .map m => .mapping (to_yamlPairs m)

/-- The `list.iter().map(|item| item.to_yaml()).collect()` of the
`List` arm. -/
def to_yamlList : List ScyllaConfig → List YamlValue
  | [] => []
  | x :: xs => to_yaml x :: to_yamlList xs

/-- The `map.iter().map(|(key, value)| (Value::String(key), value.to_yaml()))`
of the `Map` arm. -/
def to_yamlPairs : List (String × ScyllaConfig) → List (YamlValue × YamlValue)
  | [] => []
  | (k, v) :: rest => (.string k, to_yaml v) :: to_yamlPairs rest

end

/-- `HashMap::insert`: replace the value if the key is present (the stored
key is not updated), otherwise add the binding. -/
def insertKV : List (String × ScyllaConfig) → String → ScyllaConfig →
    List (String × ScyllaConfig)
  | [], k, v => [(k, v)]
  | (k', v') :: rest, k, v =>
    if k' = k then (k', v) :: rest else (k', v') :: insertKV rest k v

mutual

/-- `ScyllaConfig::from_yaml` (src/cluster_config.rs lines 40-82). -/
def from_yaml : YamlValue → Except String ScyllaConfig
  | .null => .ok .null
  | .bool b => .ok (.bool b)
  | .intNumber i => .ok (.int i)
  | .floatNumber r => .ok (.float r)
  | .string s => .ok (.string s)
  | .sequence seq =>
    match from_yamlSeq seq with
    | .ok l => .ok (.list l)
    | .error e => .error e
  | .mapping m =>
    match from_yamlPairs m [] with
    | .ok mm => .ok (.map mm)
    | .error e => .error e
  | .tagged => .error "Unsupported YAML type"

/-- The `Sequence` arm's loop: parse each element, pushing into the new
vector, failing with the sequence message on a bad element. -/
def from_yamlSeq : List YamlValue → Except String (List ScyllaConfig)
  | [] => .ok []
  | v :: rest =>
    match from_yaml v with
    | .ok pv =>
      match from_yamlSeq rest with
      | .ok pvs => .ok (pv :: pvs)
      | .error e => .error e
    | .error _ => .error "Error parsing value in sequence"

/-- The `Mapping` arm's loop: string keys only, parse each value and
`insert` it into the accumulated map. -/
def from_yamlPairs : List (YamlValue × YamlValue) → List (String × ScyllaConfig) →
    Except String (List (String × ScyllaConfig))
  | [], acc => .ok acc
  | (k, v) :: rest, acc =>
    match k with
    | .string ks =>
      match from_yaml v with
      | .ok pv => from_yamlPairs rest (insertKV acc ks pv)
      | .error _ => .error "Error parsing value in mapping"
    | _ => .error "Invalid key type in mapping"

end

/-- `sorted_keys.sort()` composed with the per-key `map.get(key).unwrap()`
of `to_flat_string`, rendered as sorting the entry list by key
(ascending lexicographic). -/
def sortEntries (m : List (String × ScyllaConfig)) : List (String × ScyllaConfig) :=
  List.insertionSort (fun a b => a.1 ≤ b.1) m

theorem perm_sizeOf_eq {α : Type _} [SizeOf α] {l₁ l₂ : List α} (h : l₁.Perm l₂) :
    sizeOf l₁ = sizeOf l₂ := by
  induction h with
  | nil => rfl
  | cons a _ ih => simp only [List.cons.sizeOf_spec]; omega
  | swap a b l => simp only [List.cons.sizeOf_spec]; omega
  | trans _ _ ih₁ ih₂ => omega

theorem sizeOf_sortEntries (m : List (String × ScyllaConfig)) :
    sizeOf (sortEntries m) = sizeOf m :=
  perm_sizeOf_eq (List.perm_insertionSort _ m)

/-- The loop body of `flatten_map` (src/cluster_config.rs lines 86-132):
walk an already-sorted entry list, extending the dotted key prefix,
emitting one `key:value` line per leaf; a nested map is recursively
walked with its entries sorted, exactly as the recursive
`flatten_map(inner_map, full_key, output)` call does. -/
def flattenGo : List (String × ScyllaConfig) → String → List String
  | [], _ => []
  | (k, v) :: rest, pre =>
    let full_key := if pre = "" then k else pre ++ "." ++ k
    (match v with
     | .map inner => flattenGo (sortEntries inner) full_key
     | .string s => [full_key ++ ":" ++ s]
     | .int i => [full_key ++ ":" ++ toString i]
     | .float r => [full_key ++ ":" ++ r]
     | .bool b => [full_key ++ ":" ++ toString b]
     | .null => [full_key ++ ":null"]
     | .list l => [full_key ++ ":[" ++ joinSep ", " (debugReprList l) ++ "]"]) ++
      flattenGo rest pre
termination_by entries _ => sizeOf entries
decreasing_by
  · rw [sizeOf_sortEntries]
    simp only [List.cons.sizeOf_spec, Prod.mk.sizeOf_spec, ScyllaConfig.map.sizeOf_spec]
    omega
  · simp only [List.cons.sizeOf_spec]
    omega

/-- `flatten_map(map, prefix, output)`: sort the keys, then run the loop. -/
def flatten_map (m : List (String × ScyllaConfig)) (pre : String) : List String :=
  flattenGo (sortEntries m) pre

/-- `ScyllaConfig::to_flat_string` (src/cluster_config.rs lines 85-139). -/
def to_flat_string (t : ScyllaConfig) : String :=
  match t with
  | .map m => joinSep " " (flatten_map m "")
  | _ => ""

/-! ### Spec-side model of flattening

Modelled from the spec: "map keys joined by `.` across nesting levels,
each leaf rendered as `key:value`, entries space-separated, keys at each
level sorted lexicographically".  An entry is the non-empty key path of a
leaf (head key and remaining keys) together with the leaf's rendered
value; rendering joins the path with dots.  This definition is the
independent restatement of the spec's words that `to_flat_string` is
compared against. -/

/-- Leaf entries of an already-sorted entry list, as
`(head key, rest of key path, rendered leaf value)`, in spec order. -/
def specGo : List (String × ScyllaConfig) → List (String × List String × String)
  | [] => []
  | (k, v) :: rest =>
    (match v with
     | .map inner => (specGo (sortEntries inner)).map (fun e => (k, e.1 :: e.2.1, e.2.2))
     | .string s => [(k, [], s)]
     | .int i => [(k, [], toString i)]
     | .float r => [(k, [], r)]
     | .bool b => [(k, [], toString b)]
     | .null => [(k, [], "null")]
     | .list l => [(k, [], "[" ++ joinSep ", " (debugReprList l) ++ "]")]) ++
      specGo rest
termination_by entries => sizeOf entries
decreasing_by
  · rw [sizeOf_sortEntries]
    simp only [List.cons.sizeOf_spec, Prod.mk.sizeOf_spec, ScyllaConfig.map.sizeOf_spec]
    omega
  · simp only [List.cons.sizeOf_spec]
    omega

/-- Leaf entries of a map-rooted tree with keys sorted at each level. -/
def specEntries (t : ScyllaConfig) : List (String × List String × String) :=
  match t with
  | .map m => specGo (sortEntries m)
  | _ => []

/-- Render one leaf entry under an outer prefix: the key path joined with
dots, preceded by the prefix (and a dot) when the prefix is non-empty,
then `:` and the value. -/
def renderEntry (pre : String) (e : String × List String × String) : String :=
  (if pre = "" then joinSep "." (e.1 :: e.2.1) else pre ++ "." ++ joinSep "." (e.1 :: e.2.1))
    ++ ":" ++ e.2.2

mutual

/-- Every map key in the tree (along map nesting) is non-empty. -/
def keysNonempty : ScyllaConfig → Bool
  | .map m => keysNonemptyPairs m
  | _ => true

/-- Key non-emptiness for each entry of a map. -/
def keysNonemptyPairs : List (String × ScyllaConfig) → Bool
  | [] => true
  | (k, v) :: rest => !(k == "") && keysNonempty v && keysNonemptyPairs rest

end

mutual

/-- The tree contains no float leaf. -/
def noFloat : ScyllaConfig → Bool
  | .float _ => false
  | .list l => noFloatList l
  | .map m => noFloatPairs m
  | _ => true

/-- No float leaf in any list element. -/
def noFloatList : List ScyllaConfig → Bool
  | [] => true
  | x :: xs => noFloat x && noFloatList xs

/-- No float leaf in any map value. -/
def noFloatPairs : List (String × ScyllaConfig) → Bool
  | [] => true
  | (_, v) :: rest => noFloat v && noFloatPairs rest

end

/-- No string occurs twice in the list (`HashMap`'s key invariant). -/
def distinctKeys : List String → Bool
  | [] => true
  | k :: rest => !(rest.contains k) && distinctKeys rest

mutual

/-- Every map in the tree has pairwise-distinct keys: the structural
invariant every tree built from `HashMap`s satisfies. -/
def nodupKeys : ScyllaConfig → Bool
  | .list l => nodupKeysList l
  | .map m => distinctKeys (m.map Prod.fst) && nodupKeysPairs m
  | _ => true

/-- Key distinctness for list elements. -/
def nodupKeysList : List ScyllaConfig → Bool
  | [] => true
  | x :: xs => nodupKeys x && nodupKeysList xs

/-- Key distinctness for map values. -/
def nodupKeysPairs : List (String × ScyllaConfig) → Bool
  | [] => true
  | (_, v) :: rest => nodupKeys v && nodupKeysPairs rest

end

/-! ## Topology Manager (src/cluster.rs)

`Node` and `Cluster` are embedded with their data fields; the shared
`logged_cmd : Arc<LoggedCmd>` handle is omitted and the external `ccm`
invocations an operation issues are returned explicitly as a list of
`(command, args)` pairs.  The success of each external invocation is an
input: a `Bool` for single invocations, an oracle `Nat → Bool` (indexed by
invocation order) for per-node fan-outs.  `async`/`await` sequencing
becomes plain sequential evaluation. -/

/-- src/cluster.rs lines 14-17. -/
inductive NodeStatus where
  | ACTIVE
  | DELETED
deriving DecidableEq

/-- src/cluster.rs lines 19-23. -/
inductive NodeStartOption where
  | NOWAIT
  | WaitOtherNotice
  | WaitForBinaryProto

/-- One external invocation: the command and its argument vector. -/
abbrev Invocation := String × List String

/-- src/cluster.rs lines 29-40 (the shared runner handle omitted). -/
structure Node where
  name : String
  datacenter_id : Int
  node_id : Int
  status : NodeStatus
  scylla : Bool
  smp : Int
  memory : Int
  config : ScyllaConfig
  install_directory : String

/-- `Node::new` (src/cluster.rs lines 42-65). -/
def Node.new (datacenter_id node_id : Int) (scylla : Bool) (smp memory : Int)
    (config : ScyllaConfig) (install_directory : String) : Node :=
  { name := "node_" ++ toString datacenter_id ++ "_" ++ toString node_id
    datacenter_id := datacenter_id
    node_id := node_id
    status := .ACTIVE
    scylla := scylla
    smp := smp
    memory := if memory ≠ 0 then memory else 512 * smp
    config := config
    install_directory := install_directory }

/-- `Node::jmx_port` (src/cluster.rs lines 67-69). -/
def Node.jmx_port (n : Node) : Int := 7000 + n.datacenter_id * 100 + n.node_id

/-- `Node::debug_port` (src/cluster.rs lines 71-73). -/
def Node.debug_port (n : Node) : Int := 2000 + n.datacenter_id * 100 + n.node_id

/-- The argument vector of the `ccm add` invocation `Node::init` issues
(src/cluster.rs lines 84-108). -/
def Node.init_args (n : Node) : List String :=
  ["add", n.name, "--data-center", "dc" ++ toString n.datacenter_id,
   "--jmx-port", toString n.jmx_port, "--remote-debug-port", toString n.debug_port,
   "--config-dir", n.install_directory] ++
    (if n.scylla then ["--scylla"] else [])

/-- Translation of one start option to its command-line switch
(src/cluster.rs lines 112-118). -/
def startOptionFlag : NodeStartOption → String
  | .NOWAIT => "--no-wait"
  | .WaitOtherNotice => "--wait-other-notice"
  | .WaitForBinaryProto => "--wait-for-binary-proto"

/-- The argument vector of the `ccm start` invocation `Node::start` issues
(src/cluster.rs lines 110-124); `opts.unwrap_or(&[])` becomes `getD []`. -/
def Node.start_args (n : Node) (opts : Option (List NodeStartOption)) : List String :=
  ["start", n.name, "--config-dir", n.install_directory] ++
    (opts.getD []).map startOptionFlag

/-- src/cluster.rs lines 139-151 (the runner handle omitted). -/
structure Cluster where
  name : String
  scylla : Bool
  version : String
  ip_prefix : String
  install_directory : String
  nodes : List Node
  destroyed : Bool
  default_node_smp : Int
  default_node_memory : Int
  default_node_config : Option ScyllaConfig

/-- The inner loop of `get_free_node_id` (src/cluster.rs lines 212-219):
does some node of the datacenter already use this node id? -/
def usedInDc (nodes : List Node) (datacenter_id node_id : Int) : Bool :=
  nodes.any (fun node => node.datacenter_id == datacenter_id && node.node_id == node_id)

/-- The candidate node ids `1..=255` in loop order. -/
def candidateNodeIds : List Int := (List.range 255).map (fun i : Nat => (1 : Int) + i)

/-- The labelled outer loop of `get_free_node_id`: first candidate not used
in the datacenter, `256` when the loop falls through. -/
def findFreeId (nodes : List Node) (datacenter_id : Int) : List Int → Int
  | [] => 256
  | node_id :: rest =>
    if usedInDc nodes datacenter_id node_id then findFreeId nodes datacenter_id rest
    else node_id

/-- `Cluster::get_free_node_id` (src/cluster.rs lines 210-223). -/
def Cluster.get_free_node_id (c : Cluster) (datacenter_id : Int) : Int :=
  findFreeId c.nodes datacenter_id candidateNodeIds

/-- Modelled from the spec: the "default configuration overlay" used by
`add_node`'s `unwrap_or_default()` — no `Default` impl for `ScyllaConfig`
appears in the sources under src/; the empty map is the natural default
for an overlay.  None of the claims depends on its value. -/
def defaultScyllaConfig : ScyllaConfig := .map []

/-- `Cluster::add_node` (src/cluster.rs lines 225-239): returns the grown
cluster and (a handle to) the appended node. -/
def Cluster.add_node (c : Cluster) (datacenter_id : Option Int) : Cluster × Node :=
  let dc := datacenter_id.getD 1
  let node := Node.new dc (c.get_free_node_id dc) c.scylla c.default_node_smp
    c.default_node_memory (c.default_node_config.getD defaultScyllaConfig)
    c.install_directory
  ({ c with nodes := c.nodes ++ [node] }, node)

/-- The `ccm stop` invocation of `Cluster::stop` (src/cluster.rs 347-354). -/
def stopInvocation (c : Cluster) : Invocation :=
  ("ccm", ["stop", c.name, "--config-dir", c.install_directory])

/-- The `ccm remove` invocation of `Cluster::destroy`
(src/cluster.rs 366-378). -/
def removeInvocation (c : Cluster) : Invocation :=
  ("ccm", ["remove", c.name, "--config-dir", c.install_directory])

/-- `Cluster::stop` (src/cluster.rs lines 343-359): no-op when destroyed;
otherwise one external stop invocation whose result is returned verbatim.
Returns (result, new state, invocations issued). -/
def Cluster.stop (c : Cluster) (stopOk : Bool) :
    Except String Unit × Cluster × List Invocation :=
  if c.destroyed then (.ok (), c, [])
  else if stopOk then (.ok (), c, [stopInvocation c])
  else (.error "CommandFailed", c, [stopInvocation c])

/-- `Cluster::destroy` (src/cluster.rs lines 361-389): no-op when
destroyed; otherwise best-effort stop (result discarded by `.ok()`), then
one external remove invocation; `destroyed` is set only when the remove
succeeds. -/
def Cluster.destroy (c : Cluster) (stopOk removeOk : Bool) :
    Except String Unit × Cluster × List Invocation :=
  if c.destroyed then (.ok (), c, [])
  else
    let s := c.stop stopOk
    if removeOk then (.ok (), { c with destroyed := true }, s.2.2 ++ [removeInvocation c])
    else (.error "CommandFailed", c, s.2.2 ++ [removeInvocation c])

/-- The shared shape of the `for node in self.nodes.iter() { node.op().await? }`
loops of `Cluster::init` and `Cluster::start`: issue one invocation per
node, in list order, stopping at the first failure (`?`).  `oracle i` is
the success of the `i`-th invocation. -/
def runNodesSeq (mkInv : Node → Invocation) (oracle : Nat → Bool) :
    List Node → Nat → Except String Unit × List Invocation
  | [], _ => (.ok (), [])
  | node :: rest, i =>
    let inv := mkInv node
    if oracle i then
      let r := runNodesSeq mkInv oracle rest (i + 1)
      (r.1, inv :: r.2)
    else (.error "CommandFailed", [inv])

/-- `Cluster::start` (src/cluster.rs lines 335-341): start every node,
one at a time, in node-list (creation) order. -/
def Cluster.start (c : Cluster) (opts : Option (List NodeStartOption))
    (oracle : Nat → Bool) : Except String Unit × List Invocation :=
  runNodesSeq (fun n => ("ccm", n.start_args opts)) oracle c.nodes 0

/-- The argument vector of the `ccm create` invocation of `Cluster::init`
(src/cluster.rs lines 311-324). -/
def Cluster.create_args (c : Cluster) : List String :=
  ["create", c.name, "-v", c.version, "-i", c.ip_prefix,
   "--config-dir", c.install_directory] ++
    (if c.scylla then ["--scylla"] else [])

/-- `Cluster::init` (src/cluster.rs lines 305-333): one cluster-create
invocation, then sequential per-node init, aborting at the first failure.
The filesystem cleanup of the state directory is not modeled. -/
def Cluster.init (c : Cluster) (createOk : Bool) (oracle : Nat → Bool) :
    Except String Unit × List Invocation :=
  if createOk then
    let r := runNodesSeq (fun n => ("ccm", n.init_args)) oracle c.nodes 0
    (r.1, ("ccm", c.create_args) :: r.2)
  else (.error "CommandFailed", [("ccm", c.create_args)])

/-! ## Address Allocator (src/cluster.rs `sniff_ip_prefix`,
src/find_available_iprange.rs)

The set of in-use prefixes read from `/proc/net/tcp` is an input (the
parsing of the host table is I/O and not modeled); the scan over the
candidate prefixes is embedded faithfully. -/

/-- `format!("127.{}.{}.", a, b)`. -/
def ipPrefixStr (a b : Nat) : String :=
  "127." ++ toString a ++ "." ++ toString b ++ "."

/-- The candidate octet pairs of `sniff_ip_prefix`'s nested loops
(src/cluster.rs lines 199-206): `a` in `1..=255` outer, `b` in `1..=255`
inner — ascending lexicographic order of `(a, b)`. -/
def sniffCandidates : List (Nat × Nat) :=
  (List.range 255).bind (fun a => (List.range 255).map (fun b => (a + 1, b + 1)))

/-- The scan loop of `sniff_ip_prefix`: first candidate prefix absent from
the in-use set; `IoError::from_raw_os_error(1)` (modeled as `.error ()`)
when the loops fall through. -/
def sniffLoop (used : List String) : List (Nat × Nat) → Except Unit String
  | [] => .error ()
  | ab :: rest =>
    let ip_prefix := ipPrefixStr ab.1 ab.2
    if used.contains ip_prefix then sniffLoop used rest else .ok ip_prefix

/-- `Cluster::sniff_ip_prefix` (src/cluster.rs lines 178-208) as a function
of the in-use prefix set. -/
def sniff_ip_prefix (used : List String) : Except Unit String :=
  sniffLoop used sniffCandidates

/-- The candidate octet pairs of `find_available_iprange`
(src/find_available_iprange.rs lines 46-56): `i` and `j` each in `0..=255`,
skipping only `(0, 0)` (the `127.0.0.0/24` block). -/
def faCandidates : List (Nat × Nat) :=
  ((List.range 256).bind (fun i => (List.range 256).map (fun j => (i, j)))).filter
    (fun p => !(p.1 == 0 && p.2 == 0))

/-- The scan loop of `find_available_iprange`: first `127.i.j.0` network
absent from the active set. -/
def faLoop (active : List (Nat × Nat × Nat × Nat)) :
    List (Nat × Nat) → Except String (Nat × Nat × Nat × Nat)
  | [] => .error "No free IP ranges found"
  | ij :: rest =>
    let net := (127, ij.1, ij.2, 0)
    if active.contains net then faLoop active rest else .ok net

/-- `find_available_iprange` (src/find_available_iprange.rs lines 43-58, a
helper not referenced by `Cluster`) as a function of the active set. -/
def find_available_iprange (active : List (Nat × Nat × Nat × Nat)) :
    Except String (Nat × Nat × Nat × Nat) :=
  faLoop active faCandidates

/-- A node as the test fixture `test_cluster_lifecycle` would create it:
scylla, 1 core, 512 MB, empty overlay. -/
def mkTestNode (dc id : Int) : Node := Node.new dc id true 1 512 (.map []) "/tmp/ccm"

/-- Concrete node list: datacenter 1 holds node ids {1, 2, 4}. -/
def exNodes124 : List Node := [mkTestNode 1 1, mkTestNode 1 2, mkTestNode 1 4]

/-- Concrete node list: datacenter 1 holds every id 1..=255. -/
def fullDcNodes : List Node := (List.range 255).map (fun i : Nat => mkTestNode 1 (1 + i))

/-- A concrete cluster (fields as in the `test_cluster_lifecycle` fixture)
around a given node list. -/
def mkCluster (nodes : List Node) : Cluster :=
  { name := "test_cluster"
    scylla := true
    version := "release:6.2"
    ip_prefix := "127.0.1."
    install_directory := "/tmp/ccm"
    nodes := nodes
    destroyed := false
    default_node_smp := 1
    default_node_memory := 512
    default_node_config := none }

instance : IsTotal (String × ScyllaConfig) (fun a b => a.1 ≤ b.1) :=
  ⟨fun a b => le_total a.1 b.1⟩

instance : IsTrans (String × ScyllaConfig) (fun a b => a.1 ≤ b.1) :=
  ⟨fun _ _ _ h₁ h₂ => le_trans h₁ h₂⟩

/-! ### Interchange round trip: helper lemmas and the C8 theorems -/

def cfg_induction (P : ScyllaConfig → Prop) (hnull : P .null) (hbool : ∀ b, P (.bool b))
    (hint : ∀ i, P (.int i)) (hfloat : ∀ r, P (.float r)) (hstring : ∀ s, P (.string s))
    (hlist : ∀ l, (∀ x ∈ l, P x) → P (.list l))
    (hmap : ∀ m, (∀ kv ∈ m, P kv.2) → P (.map m)) : ∀ t, P t
  | .null => hnull
  | .bool b => hbool b
  | .int i => hint i
  | .float r => hfloat r
  | .string s => hstring s
  | .list l => hlist l (fun x hx =>
      cfg_induction P hnull hbool hint hfloat hstring hlist hmap x)
  | .map m => hmap m (fun kv hkv =>
      cfg_induction P hnull hbool hint hfloat hstring hlist hmap kv.2)
termination_by t => sizeOf t
decreasing_by
  · have h1 := List.sizeOf_lt_of_mem hx
    simp only [ScyllaConfig.list.sizeOf_spec]
    omega
  · have h1 := List.sizeOf_lt_of_mem hkv
    have h2 : sizeOf kv = 1 + sizeOf kv.1 + sizeOf kv.2 := rfl
    simp only [ScyllaConfig.map.sizeOf_spec]
    omega

/-! ## Theorems -/

theorem two_pow_31_int : (2 : Int) ^ 31 = 2147483648 := by norm_num

theorem two_pow_32_int : (2 : Int) ^ 32 = 4294967296 := by norm_num

theorem wrap32_eq_self {x : Int} (h₁ : -2147483648 ≤ x) (h₂ : x < 2147483648) :
    wrap32 x = x := by
  unfold wrap32
  rw [two_pow_31_int, two_pow_32_int, Int.emod_eq_of_lt (by omega) (by omega)]
  omega

theorem wrap32_wrap32_add (a b : Int) : wrap32 (wrap32 a + b) = wrap32 (a + b) := by
  unfold wrap32
  have h : (a + 2 ^ 31) % 2 ^ 32 - 2 ^ 31 + b + 2 ^ 31 = (a + 2 ^ 31) % 2 ^ 32 + b := by ring
  rw [h, Int.emod_add_emod]
  ring_nf

theorem wrap32_idem (a : Int) : wrap32 (wrap32 a) = wrap32 a := by
  have h := wrap32_wrap32_add a 0
  simpa using h

theorem runIdsFrom_eq_map (n : Nat) (c : Int) (hc : wrap32 c = c) :
    runIdsFrom n c = (List.range n).map (fun i : Nat => wrap32 (c + (i : Int))) := by
  induction n generalizing c with
  | zero => simp [runIdsFrom]
  | succ m ih =>
    rw [List.range_succ_eq_map]
    simp only [runIdsFrom, fetchAdd1, List.map_cons, List.map_map]
    rw [List.cons_eq_cons]
    constructor
    · simpa using hc.symm
    · rw [ih (wrap32 (c + 1)) (wrap32_idem (c + 1))]
      apply List.map_congr_left
      intro i _
      simp only [Function.comp_apply]
      rw [wrap32_wrap32_add]
      congr 1
      push_cast
      ring

theorem runIds_eq_map (n : Nat) (hn : n ≤ 2147483647) :
    runIds n = (List.range n).map (fun i : Nat => (i : Int) + 1) := by
  rw [runIds, runIdsFrom_eq_map n 1 (wrap32_eq_self (by omega) (by omega))]
  apply List.map_congr_left
  intro i hi
  rw [List.mem_range] at hi
  rw [wrap32_eq_self (by omega) (by omega)]
  ring

/-- C1 (amended): for every sequence of `N ≤ 2^31 − 1` calls to
`LoggedCmd::run_command` on one `LoggedCmd` instance (in any interleaving of
the atomic fetch-and-adds), the run identifiers assigned are exactly
`{1..N}`: the counter starts at 1, each call gets a unique id, ids are
strictly increasing in allocation order, and no id is reused or skipped.
(The bound is forced by the `AtomicI32` counter wrapping at `2^31`.) -/
theorem run_ids_exactly_one_to_n (n : Nat) (hn : n ≤ 2147483647) :
    (runIds n).length = n ∧
    List.Chain' (· < ·) (runIds n) ∧
    (runIds n).Nodup ∧
    ∀ id : Int, id ∈ runIds n ↔ 1 ≤ id ∧ id ≤ (n : Int) := by
  rw [runIds_eq_map n hn]
  have hpair : List.Pairwise (· < ·) ((List.range n).map (fun i : Nat => (i : Int) + 1)) := by
    rw [List.pairwise_map]
    refine List.Pairwise.imp ?_ (List.pairwise_lt_range n)
    intro a b h
    omega
  refine ⟨by simp, ?_, ?_, ?_⟩
  · rw [List.chain'_iff_pairwise]
    exact hpair
  · exact hpair.imp (fun h => ne_of_lt h)
  · intro id
    simp only [List.mem_map, List.mem_range]
    constructor
    · rintro ⟨i, hi, rfl⟩
      omega
    · rintro ⟨h1, h2⟩
      exact ⟨(id - 1).toNat, by omega, by omega⟩

/-- Witness for C1's theorem at `N = 3`: the hypothesis `3 ≤ 2^31 − 1` is
discharged concretely and the ids are `{1, 2, 3}`. -/
theorem run_ids_exactly_one_to_n_witness :
    (runIds 3).length = 3 ∧
    List.Chain' (· < ·) (runIds 3) ∧
    (runIds 3).Nodup ∧
    ∀ id : Int, id ∈ runIds 3 ↔ 1 ≤ id ∧ id ≤ (3 : Int) :=
  run_ids_exactly_one_to_n 3 (by norm_num)

/-- Counterexample to C1 as stated (unbounded `N`): on the `2^31`-th call the
`AtomicI32` counter has wrapped, so the id handed out is `−2^31`, which is
not in `{1..N}` (and breaks strict increase). -/
theorem run_ids_wrap_counterexample :
    (-2147483648 : Int) ∈ runIds 2147483648 ∧ ¬ (1 : Int) ≤ -2147483648 := by
  constructor
  · rw [runIds, runIdsFrom_eq_map 2147483648 1 (wrap32_eq_self (by omega) (by omega))]
    rw [List.mem_map]
    refine ⟨2147483647, List.mem_range.mpr (by omega), ?_⟩
    have h : (1 : Int) + ((2147483647 : Nat) : Int) = 2147483648 := by norm_num
    rw [h]
    unfold wrap32
    rw [two_pow_31_int, two_pow_32_int]
    norm_num
  · norm_num

/-- C2: for every command whose child exits with a code: exit code 0 yields
success carrying the raw status; a non-zero code with allow-failure set
yields success carrying that status; a non-zero code with allow-failure
unset or false yields a `CommandFailed` error carrying the status. -/
theorem run_command_exit_classification (f : Unit) (command : String)
    (args : List String) (opts : Option RunOptions) (run_id : Int) (code : Int) :
    (code = 0 →
      (run_command (some f) command args opts run_id true (.ok (some code))).1 =
        .ok (.ok (some code))) ∧
    (code ≠ 0 → effectiveAllowFailure opts = true →
      (run_command (some f) command args opts run_id true (.ok (some code))).1 =
        .ok (.ok (some code))) ∧
    (code ≠ 0 → effectiveAllowFailure opts = false →
      (run_command (some f) command args opts run_id true (.ok (some code))).1 =
        .ok (.error (.commandFailed (some code)))) := by
  refine ⟨?_, ?_, ?_⟩
  · intro h0
    subst h0
    simp [run_command]
  · intro hne hallow
    simp [run_command, hallow]
  · intro hne hallow
    have : some code ≠ some 0 := by simpa using hne
    simp [run_command, hallow, this]

/-- Witness for C2 at a concrete input: `ls /nonexistent_path` exiting with
code 2, no options (allow-failure unset), is classified `CommandFailed`
carrying status 2. -/
theorem run_command_exit_classification_witness :
    (run_command (some ()) "ls" ["/nonexistent_path"] none 1 true (.ok (some 2))).1 =
      .ok (.error (.commandFailed (some 2))) :=
  (run_command_exit_classification () "ls" ["/nonexistent_path"] none 1 2).2.2
    (by decide) (by decide)

/-- C9: for every command, argument list and options, calling `run_command`
on a `LoggedCmd` whose log file was never set (`file` field is `None`)
panics via `unwrap` on `None` (src/ccm_cli.rs line 67) instead of returning
an error: an opened log sink is an unchecked precondition. -/
theorem run_command_none_log_sink_panics (command : String) (args : List String)
    (opts : Option RunOptions) (run_id : Int) (spawnOk : Bool)
    (waitResult : Except String (Option Int)) :
    (run_command none command args opts run_id spawnOk waitResult).1 =
      .error "called `Option::unwrap()` on a `None` value" := rfl

/-! ### Flattening: helper lemmas and the C7 theorems -/

theorem joinSep_cons_cons (sep x y : String) (xs : List String) :
    joinSep sep (x :: y :: xs) = x ++ sep ++ joinSep sep (y :: xs) := rfl

theorem append_dot_ne_empty (pre k : String) : pre ++ "." ++ k ≠ "" := by
  intro h
  have hd := congrArg String.data h
  simp [String.data_append] at hd

theorem keysNonemptyPairs_iff (l : List (String × ScyllaConfig)) :
    keysNonemptyPairs l = true ↔ ∀ kv ∈ l, kv.1 ≠ "" ∧ keysNonempty kv.2 = true := by
  induction l with
  | nil => simp [keysNonemptyPairs]
  | cons kv rest ih =>
    obtain ⟨k, v⟩ := kv
    simp only [keysNonemptyPairs, Bool.and_eq_true, Bool.not_eq_true', beq_eq_false_iff_ne,
      List.mem_cons, ih]
    constructor
    · rintro ⟨⟨hk, hv⟩, hrest⟩
      rintro kv' (rfl | hmem)
      · exact ⟨hk, hv⟩
      · exact hrest kv' hmem
    · intro h
      exact ⟨h (k, v) (Or.inl rfl), fun kv' hmem => h kv' (Or.inr hmem)⟩

theorem one_le_sizeOf_list {α : Type _} [SizeOf α] (l : List α) : 1 ≤ sizeOf l := by
  cases l with
  | nil => simp
  | cons a t => simp; omega

theorem renderEntry_cons (pre k : String) (hk : pre = "" → k ≠ "")
    (e : String × List String × String) :
    renderEntry (if pre = "" then k else pre ++ "." ++ k) e =
      renderEntry pre (k, e.1 :: e.2.1, e.2.2) := by
  obtain ⟨h, p, val⟩ := e
  by_cases hpre : pre = ""
  · subst hpre
    rw [if_pos rfl]
    simp only [renderEntry, joinSep_cons_cons, if_neg (hk rfl), if_pos rfl]
    simp
  · rw [if_neg hpre]
    simp only [renderEntry, joinSep_cons_cons, if_neg (append_dot_ne_empty pre k),
      if_neg hpre]
    simp [String.append_assoc]

theorem renderEntry_leaf (pre k val : String) :
    renderEntry pre (k, [], val) = (if pre = "" then k else pre ++ "." ++ k) ++ ":" ++ val := by
  by_cases hpre : pre = "" <;> simp [renderEntry, joinSep, hpre]

theorem colon_lbrack (a : String) : (a ++ ":") ++ "[" = a ++ ":[" := by
  rw [String.append_assoc]
  rfl

theorem flattenGo_nil (pre : String) : flattenGo [] pre = [] := by
  rw [flattenGo.eq_def]

theorem flattenGo_cons (k : String) (v : ScyllaConfig) (rest : List (String × ScyllaConfig))
    (pre : String) :
    flattenGo ((k, v) :: rest) pre =
    (match v with
     | .map inner => flattenGo (sortEntries inner) (if pre = "" then k else pre ++ "." ++ k)
     | .string s => [(if pre = "" then k else pre ++ "." ++ k) ++ ":" ++ s]
     | .int i => [(if pre = "" then k else pre ++ "." ++ k) ++ ":" ++ toString i]
     | .float r => [(if pre = "" then k else pre ++ "." ++ k) ++ ":" ++ r]
     | .bool b => [(if pre = "" then k else pre ++ "." ++ k) ++ ":" ++ toString b]
     | .null => [(if pre = "" then k else pre ++ "." ++ k) ++ ":null"]
     | .list l => [(if pre = "" then k else pre ++ "." ++ k) ++ ":[" ++
        joinSep ", " (debugReprList l) ++ "]"]) ++ flattenGo rest pre := by
  rw [flattenGo.eq_def]

theorem specGo_nil : specGo [] = [] := by
  rw [specGo.eq_def]

theorem specGo_cons (k : String) (v : ScyllaConfig) (rest : List (String × ScyllaConfig)) :
    specGo ((k, v) :: rest) =
    (match v with
     | .map inner => (specGo (sortEntries inner)).map (fun e => (k, e.1 :: e.2.1, e.2.2))
     | .string s => [(k, [], s)]
     | .int i => [(k, [], toString i)]
     | .float r => [(k, [], r)]
     | .bool b => [(k, [], toString b)]
     | .null => [(k, [], "null")]
     | .list l => [(k, [], "[" ++ joinSep ", " (debugReprList l) ++ "]")]) ++
      specGo rest := by
  rw [specGo.eq_def]

theorem flattenGo_eq_specGo_aux : ∀ (fuel : Nat) (entries : List (String × ScyllaConfig)),
    sizeOf entries ≤ fuel →
    (∀ kv ∈ entries, kv.1 ≠ "" ∧ keysNonempty kv.2 = true) →
    ∀ pre, flattenGo entries pre = (specGo entries).map (renderEntry pre) := by
  intro fuel
  induction fuel with
  | zero =>
    intro entries hsz
    have := one_le_sizeOf_list entries
    omega
  | succ n ih =>
    intro entries hsz hkeys pre
    match entries with
    | [] => rw [flattenGo_nil, specGo_nil]; rfl
    | (k, v) :: rest =>
      have hhead := hkeys (k, v) (List.mem_cons_self _ _)
      have hrest : ∀ kv ∈ rest, kv.1 ≠ "" ∧ keysNonempty kv.2 = true :=
        fun kv hm => hkeys kv (List.mem_cons_of_mem _ hm)
      have hszrest : sizeOf rest ≤ n := by
        simp only [List.cons.sizeOf_spec] at hsz
        omega
      rw [flattenGo_cons, specGo_cons, List.map_append, ih rest hszrest hrest pre]
      congr 1
      cases v with
      | map inner =>
        have hszinner : sizeOf (sortEntries inner) ≤ n := by
          rw [sizeOf_sortEntries]
          simp only [List.cons.sizeOf_spec, Prod.mk.sizeOf_spec,
            ScyllaConfig.map.sizeOf_spec] at hsz
          omega
        have hinner : ∀ kv ∈ sortEntries inner, kv.1 ≠ "" ∧ keysNonempty kv.2 = true := by
          intro kv hm
          have hm' : kv ∈ inner :=
            (List.perm_insertionSort (fun a b : String × ScyllaConfig => a.1 ≤ b.1)
              inner).mem_iff.mp hm
          have hp : keysNonemptyPairs inner = true := by
            have := hhead.2
            simpa [keysNonempty] using this
          exact (keysNonemptyPairs_iff inner).mp hp kv hm'
        show flattenGo (sortEntries inner) _ = _
        rw [ih (sortEntries inner) hszinner hinner, List.map_map]
        apply List.map_congr_left
        intro e _
        simp only [Function.comp_apply]
        exact renderEntry_cons pre k (fun _ => hhead.1) e
      | null =>
        rw [List.map_cons, List.map_nil, renderEntry_leaf]
        conv_rhs => rw [String.append_assoc]
        rfl
      | bool b => rw [List.map_cons, List.map_nil, renderEntry_leaf]
      | int i => rw [List.map_cons, List.map_nil, renderEntry_leaf]
      | float r => rw [List.map_cons, List.map_nil, renderEntry_leaf]
      | string s => rw [List.map_cons, List.map_nil, renderEntry_leaf]
      | list l =>
        rw [List.map_cons, List.map_nil, renderEntry_leaf]
        conv_rhs => rw [← String.append_assoc, ← String.append_assoc, colon_lbrack]

theorem sortEntries_keys_sorted (m : List (String × ScyllaConfig)) :
    List.Sorted (fun a b : String => a ≤ b) ((sortEntries m).map Prod.fst) := by
  rw [List.Sorted, List.pairwise_map]
  exact List.sorted_insertionSort _ m

theorem flatten_map_eq_spec (m : List (String × ScyllaConfig))
    (h : keysNonempty (.map m) = true) (pre : String) :
    flatten_map m pre = (specEntries (.map m)).map (renderEntry pre) := by
  have hmem : ∀ kv ∈ sortEntries m, kv.1 ≠ "" ∧ keysNonempty kv.2 = true := by
    intro kv hm
    have hm' : kv ∈ m :=
      (List.perm_insertionSort (fun a b : String × ScyllaConfig => a.1 ≤ b.1) m).mem_iff.mp hm
    have hp : keysNonemptyPairs m = true := by simpa [keysNonempty] using h
    exact (keysNonemptyPairs_iff m).mp hp kv hm'
  exact flattenGo_eq_specGo_aux (sizeOf (sortEntries m)) (sortEntries m) le_rfl hmem pre

/-- C7 (amended): `flatten({"a": {"b": 1}, "c": true})` is exactly
`"a.b:1 c:true"`, and for every map-rooted tree *all of whose map keys are
non-empty*, `to_flat_string` equals the spec-modelled rendering: nested map
keys joined with `.`, each leaf rendered as `key:value`, entries
space-separated, keys at each level sorted lexicographically (last
conjunct).  The non-emptiness restriction is forced: an empty key
contributes no dot (see the counterexample). -/
theorem to_flat_string_flattening :
    to_flat_string (.map [("a", .map [("b", .int 1)]), ("c", .bool true)]) = "a.b:1 c:true" ∧
    (∀ m : List (String × ScyllaConfig), keysNonempty (.map m) = true →
      to_flat_string (.map m) = joinSep " " ((specEntries (.map m)).map (renderEntry ""))) ∧
    (∀ m : List (String × ScyllaConfig),
      List.Sorted (fun a b : String => a ≤ b) ((sortEntries m).map Prod.fst)) := by
  refine ⟨?_, ?_, sortEntries_keys_sorted⟩
  · simp +decide [to_flat_string, flatten_map, flattenGo_cons, flattenGo_nil, sortEntries,
      List.insertionSort, List.orderedInsert, joinSep]
  · intro m h
    show joinSep " " (flatten_map m "") = _
    rw [flatten_map_eq_spec m h ""]

/-- Witness for C7's theorem at the concrete tree of the claim: the
key-nonemptiness hypothesis is discharged by evaluation and the flattening
agrees with the spec-modelled rendering there. -/
theorem to_flat_string_flattening_witness :
    keysNonempty (.map [("a", .map [("b", .int 1)]), ("c", .bool true)]) = true ∧
    to_flat_string (.map [("a", .map [("b", .int 1)]), ("c", .bool true)]) =
      joinSep " "
        ((specEntries (.map [("a", .map [("b", .int 1)]), ("c", .bool true)])).map
          (renderEntry "")) :=
  ⟨by decide, to_flat_string_flattening.2.1 _ (by decide)⟩

/-- Counterexample to C7 as stated: on the tree `{"": {"b": 1}}` the code
flattens to `"b:1"`, while joining the nested keys `""` and `"b"` with a
dot (the claim's general sentence) renders `".b:1"`: the empty top-level
key contributes no dot, so the dot-joining description fails on trees with
empty map keys. -/
theorem to_flat_string_empty_key_counterexample :
    to_flat_string (.map [("", .map [("b", .int 1)])]) = "b:1" ∧
    joinSep " " ((specEntries (.map [("", .map [("b", .int 1)])])).map (renderEntry "")) =
      ".b:1" ∧
    ("b:1" : String) ≠ ".b:1" := by
  refine ⟨?_, ?_, by decide⟩
  · simp +decide [to_flat_string, flatten_map, flattenGo_cons, flattenGo_nil, sortEntries,
      List.insertionSort, List.orderedInsert, joinSep]
  · simp +decide [specEntries, specGo_cons, specGo_nil, sortEntries,
      List.insertionSort, List.orderedInsert, joinSep, renderEntry]

theorem noFloatList_iff (l : List ScyllaConfig) :
    noFloatList l = true ↔ ∀ x ∈ l, noFloat x = true := by
  induction l with
  | nil => simp [noFloatList]
  | cons x xs ih => simp [noFloatList, ih]

theorem noFloatPairs_iff (l : List (String × ScyllaConfig)) :
    noFloatPairs l = true ↔ ∀ kv ∈ l, noFloat kv.2 = true := by
  induction l with
  | nil => simp [noFloatPairs]
  | cons kv rest ih =>
    obtain ⟨k, v⟩ := kv
    simp [noFloatPairs, ih]

theorem nodupKeysList_iff (l : List ScyllaConfig) :
    nodupKeysList l = true ↔ ∀ x ∈ l, nodupKeys x = true := by
  induction l with
  | nil => simp [nodupKeysList]
  | cons x xs ih => simp [nodupKeysList, ih]

theorem nodupKeysPairs_iff (l : List (String × ScyllaConfig)) :
    nodupKeysPairs l = true ↔ ∀ kv ∈ l, nodupKeys kv.2 = true := by
  induction l with
  | nil => simp [nodupKeysPairs]
  | cons kv rest ih =>
    obtain ⟨k, v⟩ := kv
    simp [nodupKeysPairs, ih]

theorem contains_false_not_mem {l : List String} {k : String}
    (h : l.contains k = false) : k ∉ l := by
  simp at h
  exact h

theorem insertKV_of_not_mem (acc : List (String × ScyllaConfig)) (k : String)
    (v : ScyllaConfig) (h : ∀ kv ∈ acc, kv.1 ≠ k) :
    insertKV acc k v = acc ++ [(k, v)] := by
  induction acc with
  | nil => rfl
  | cons kv' rest ih =>
    obtain ⟨k', v'⟩ := kv'
    have hne : k' ≠ k := h (k', v') (List.mem_cons_self _ _)
    simp only [insertKV, if_neg hne, List.cons_append]
    rw [ih (fun kv hm => h kv (List.mem_cons_of_mem _ hm))]

theorem from_yamlSeq_toYaml (l : List ScyllaConfig)
    (h : ∀ x ∈ l, from_yaml (to_yaml x) = .ok x) :
    from_yamlSeq (to_yamlList l) = .ok l := by
  induction l with
  | nil => rfl
  | cons x xs ih =>
    show from_yamlSeq (to_yaml x :: to_yamlList xs) = _
    rw [from_yamlSeq]
    rw [h x (List.mem_cons_self _ _), ih (fun y hy => h y (List.mem_cons_of_mem _ hy))]

theorem from_yamlPairs_toYaml : ∀ (m acc : List (String × ScyllaConfig)),
    (∀ kv ∈ m, from_yaml (to_yaml kv.2) = .ok kv.2) →
    distinctKeys (m.map Prod.fst) = true →
    (∀ kv ∈ m, ∀ kv' ∈ acc, kv'.1 ≠ kv.1) →
    from_yamlPairs (to_yamlPairs m) acc = .ok (acc ++ m) := by
  intro m
  induction m with
  | nil => intro acc _ _ _; simp [to_yamlPairs, from_yamlPairs]
  | cons kv rest ih =>
    intro acc hpt hdist hdisj
    obtain ⟨k, v⟩ := kv
    have hknotin : ∀ kv' ∈ rest, kv'.1 ≠ k := by
      intro kv' hm' heq
      simp only [List.map_cons, distinctKeys, Bool.and_eq_true, Bool.not_eq_true'] at hdist
      have hmem : k ∈ rest.map Prod.fst := List.mem_map.mpr ⟨kv', hm', heq⟩
      exact contains_false_not_mem hdist.1 hmem
    show from_yamlPairs ((.string k, to_yaml v) :: to_yamlPairs rest) acc = _
    rw [from_yamlPairs]
    rw [hpt (k, v) (List.mem_cons_self _ _)]
    show from_yamlPairs (to_yamlPairs rest) (insertKV acc k v) = _
    rw [insertKV_of_not_mem acc k v
      (fun kv' hm' => hdisj (k, v) (List.mem_cons_self _ _) kv' hm')]
    rw [ih (acc ++ [(k, v)])
      (fun kv hm => hpt kv (List.mem_cons_of_mem _ hm))
      (by simp only [List.map_cons, distinctKeys, Bool.and_eq_true] at hdist; exact hdist.2)
      ?_]
    · rw [List.append_assoc]
      rfl
    · intro kv hm kv' hm'
      rcases List.mem_append.mp hm' with hacc | hsing
      · exact hdisj kv (List.mem_cons_of_mem _ hm) kv' hacc
      · have heq' : kv' = (k, v) := by simpa using hsing
        subst heq'
        exact fun heq => hknotin kv hm heq.symm

/-- C8: converting a configuration tree to the interchange (YAML value)
form with `to_yaml` and back with `from_yaml` reproduces an equal tree for
all variants (null, bool, int, string, list, map); float leaves are
excluded (the claim's integer/float boundary carve-out), and the
duplicate-free-keys hypothesis is the structural invariant every tree
built from Rust `HashMap`s has. -/
theorem from_yaml_to_yaml_roundtrip (t : ScyllaConfig) :
    noFloat t = true → nodupKeys t = true → from_yaml (to_yaml t) = .ok t := by
  induction t using cfg_induction with
  | hnull => intro _ _; rfl
  | hbool b => intro _ _; rfl
  | hint i => intro _ _; rfl
  | hfloat r => intro hf _; simp [noFloat] at hf
  | hstring s => intro _ _; rfl
  | hlist l ih =>
    intro hf hk
    have hf' : ∀ x ∈ l, noFloat x = true := by
      have : noFloatList l = true := by simpa [noFloat] using hf
      exact (noFloatList_iff l).mp this
    have hk' : ∀ x ∈ l, nodupKeys x = true := by
      have : nodupKeysList l = true := by simpa [nodupKeys] using hk
      exact (nodupKeysList_iff l).mp this
    have hs := from_yamlSeq_toYaml l (fun x hx => ih x hx (hf' x hx) (hk' x hx))
    show (match from_yamlSeq (to_yamlList l) with
      | .ok l' => Except.ok (ScyllaConfig.list l')
      | .error e => Except.error e) = .ok (.list l)
    rw [hs]
  | hmap m ih =>
    intro hf hk
    have hf' : ∀ kv ∈ m, noFloat kv.2 = true := by
      have : noFloatPairs m = true := by simpa [noFloat] using hf
      exact (noFloatPairs_iff m).mp this
    have hkm : distinctKeys (m.map Prod.fst) = true ∧ nodupKeysPairs m = true := by
      simpa [nodupKeys, Bool.and_eq_true] using hk
    have hk' : ∀ kv ∈ m, nodupKeys kv.2 = true := (nodupKeysPairs_iff m).mp hkm.2
    have hp := from_yamlPairs_toYaml m []
      (fun kv hm => ih kv hm (hf' kv hm) (hk' kv hm))
      hkm.1
      (fun kv _ kv' hm' => absurd hm' (List.not_mem_nil kv'))
    show (match from_yamlPairs (to_yamlPairs m) [] with
      | .ok mm => Except.ok (ScyllaConfig.map mm)
      | .error e => Except.error e) = .ok (.map m)
    rw [hp]
    rfl

/-- Witness for C8 at a concrete float-free tree covering every variant:
both hypotheses evaluate to `true` and the round trip reproduces it. -/
theorem from_yaml_to_yaml_roundtrip_witness :
    noFloat (.map [("bool_value", .bool true), ("int_value", .int 42),
      ("list_value", .list [.int 1, .int 2, .int 3]),
      ("map_value", .map [("key1", .string "value1"), ("key2", .int 99)]),
      ("null_value", .null), ("string_value", .string "hello")]) = true ∧
    nodupKeys (.map [("bool_value", .bool true), ("int_value", .int 42),
      ("list_value", .list [.int 1, .int 2, .int 3]),
      ("map_value", .map [("key1", .string "value1"), ("key2", .int 99)]),
      ("null_value", .null), ("string_value", .string "hello")]) = true ∧
    from_yaml (to_yaml (.map [("bool_value", .bool true), ("int_value", .int 42),
      ("list_value", .list [.int 1, .int 2, .int 3]),
      ("map_value", .map [("key1", .string "value1"), ("key2", .int 99)]),
      ("null_value", .null), ("string_value", .string "hello")])) =
      .ok (.map [("bool_value", .bool true), ("int_value", .int 42),
      ("list_value", .list [.int 1, .int 2, .int 3]),
      ("map_value", .map [("key1", .string "value1"), ("key2", .int 99)]),
      ("null_value", .null), ("string_value", .string "hello")]) :=
  ⟨by rfl, by rfl, from_yaml_to_yaml_roundtrip _ (by rfl) (by rfl)⟩

/-! ### Topology Manager and Address Allocator: the C3-C6 and C10 theorems -/

theorem findFreeId_range_spec (nodes : List Node) (dc : Int) :
    ∀ (n : Nat) (s : Int),
    (s ≤ findFreeId nodes dc ((List.range n).map (fun i : Nat => s + i)) ∧
     findFreeId nodes dc ((List.range n).map (fun i : Nat => s + i)) < s + n ∧
     usedInDc nodes dc (findFreeId nodes dc ((List.range n).map (fun i : Nat => s + i))) = false ∧
     (∀ k : Int, s ≤ k → k < findFreeId nodes dc ((List.range n).map (fun i : Nat => s + i)) →
       usedInDc nodes dc k = true)) ∨
    (findFreeId nodes dc ((List.range n).map (fun i : Nat => s + i)) = 256 ∧
     ∀ k : Int, s ≤ k → k < s + n → usedInDc nodes dc k = true) := by
  intro n
  induction n with
  | zero =>
    intro s
    right
    refine ⟨rfl, ?_⟩
    intro k h1 h2
    omega
  | succ m ih =>
    intro s
    have hlist : (List.range (m + 1)).map (fun i : Nat => s + i) =
        s :: (List.range m).map (fun i : Nat => (s + 1) + i) := by
      rw [List.range_succ_eq_map]
      simp only [List.map_cons, List.map_map]
      rw [List.cons_eq_cons]
      constructor
      · simp
      · apply List.map_congr_left
        intro i _
        simp only [Function.comp_apply]
        push_cast
        ring
    rw [hlist, findFreeId]
    by_cases hu : usedInDc nodes dc s = true
    · rw [if_pos hu]
      rcases ih (s + 1) with ⟨h1, h2, h3, h4⟩ | ⟨h1, h2⟩
      · left
        refine ⟨by omega, by push_cast; push_cast at h2 ⊢; omega, h3, ?_⟩
        intro k hk1 hk2
        rcases eq_or_lt_of_le hk1 with rfl | hk1'
        · exact hu
        · exact h4 k (by omega) hk2
      · right
        refine ⟨h1, ?_⟩
        intro k hk1 hk2
        rcases eq_or_lt_of_le hk1 with rfl | hk1'
        · exact hu
        · exact h2 k (by omega) (by push_cast; push_cast at hk2; omega)
    · rw [if_neg hu]
      left
      refine ⟨le_refl s, by push_cast; omega, by simpa using hu, ?_⟩
      intro k hk1 hk2
      omega

theorem get_free_node_id_char (c : Cluster) (datacenter_id : Int) :
    (1 ≤ c.get_free_node_id datacenter_id ∧ c.get_free_node_id datacenter_id ≤ 255 ∧
     usedInDc c.nodes datacenter_id (c.get_free_node_id datacenter_id) = false ∧
     ∀ k : Int, 1 ≤ k → k < c.get_free_node_id datacenter_id →
       usedInDc c.nodes datacenter_id k = true) ∨
    (c.get_free_node_id datacenter_id = 256 ∧
     ∀ k : Int, 1 ≤ k → k ≤ 255 → usedInDc c.nodes datacenter_id k = true) := by
  have h := findFreeId_range_spec c.nodes datacenter_id 255 1
  have heq : Cluster.get_free_node_id c datacenter_id =
      findFreeId c.nodes datacenter_id ((List.range 255).map (fun i : Nat => (1 : Int) + i)) :=
    rfl
  rw [heq]
  rcases h with ⟨h1, h2, h3, h4⟩ | ⟨h1, h2⟩
  · left
    exact ⟨h1, by push_cast at h2; omega, h3, h4⟩
  · right
    refine ⟨h1, ?_⟩
    intro k hk1 hk2
    exact h2 k hk1 (by push_cast; omega)

theorem fullDcNodes_all_used :
    ∀ k : Int, 1 ≤ k → k ≤ 255 → usedInDc fullDcNodes 1 k = true := by
  intro k h1 h2
  rw [usedInDc, List.any_eq_true]
  refine ⟨mkTestNode 1 k, ?_, ?_⟩
  · rw [fullDcNodes, List.mem_map]
    refine ⟨(k - 1).toNat, List.mem_range.mpr (by omega), ?_⟩
    congr 1
    omega
  · simp [mkTestNode, Node.new]

theorem fullDc_get_free_node_id : (mkCluster fullDcNodes).get_free_node_id 1 = 256 := by
  rcases get_free_node_id_char (mkCluster fullDcNodes) 1 with ⟨h1, h2, h3, _⟩ | ⟨h1, _⟩
  · have h3' : usedInDc fullDcNodes 1 ((mkCluster fullDcNodes).get_free_node_id 1) = false := h3
    have hall := fullDcNodes_all_used _ h1 h2
    rw [h3'] at hall
    exact Bool.noConfusion hall
  · exact h1

/-- C3: the `destroyed` flag is monotonic — `stop` never changes the
state, `add_node` preserves the flag, and `destroy` leaves it at
`destroyed || removeOk` (so false→true only, and only when the external
remove invocation succeeds; on remove failure the state is unchanged).
Whenever `destroyed` is already true, both `stop` and `destroy` return
success immediately with no external invocation. -/
theorem destroyed_flag_props (c : Cluster) (stopOk removeOk : Bool) (dcOpt : Option Int) :
    ((c.stop stopOk).2.1 = c) ∧
    (c.destroyed = true →
      c.stop stopOk = (.ok (), c, []) ∧
      c.destroy stopOk removeOk = (.ok (), c, [])) ∧
    ((c.destroy stopOk removeOk).2.1.destroyed = (c.destroyed || removeOk)) ∧
    (c.destroyed = false → removeOk = false →
      (c.destroy stopOk removeOk).2.1 = c ∧
      (c.destroy stopOk removeOk).1 = .error "CommandFailed") ∧
    (c.destroyed = false → removeOk = true →
      (c.destroy stopOk removeOk).1 = .ok () ∧
      (c.destroy stopOk removeOk).2.1 = { c with destroyed := true }) ∧
    ((c.add_node dcOpt).1.destroyed = c.destroyed) := by
  cases hc : c.destroyed <;>
    cases removeOk <;>
      cases stopOk <;>
        simp [Cluster.stop, Cluster.destroy, Cluster.add_node, hc]

theorem runNodesSeq_all_ok (mkInv : Node → Invocation) (oracle : Nat → Bool) :
    ∀ (nodes : List Node) (i : Nat),
    (∀ j, j < nodes.length → oracle (i + j) = true) →
    runNodesSeq mkInv oracle nodes i = (.ok (), nodes.map mkInv) := by
  intro nodes
  induction nodes with
  | nil => intro i _; rfl
  | cons node rest ih =>
    intro i h
    have h0 : oracle i = true := by simpa using h 0 (by simp)
    rw [runNodesSeq, if_pos h0, ih (i + 1) (fun j hj => by
      have hh := h (j + 1) (by simpa using Nat.succ_lt_succ hj)
      rw [show i + 1 + j = i + (j + 1) from by omega]
      exact hh)]
    rfl

theorem runNodesSeq_first_fail (mkInv : Node → Invocation) (oracle : Nat → Bool) :
    ∀ (nodes : List Node) (i k : Nat), k < nodes.length →
    oracle (i + k) = false →
    (∀ j, j < k → oracle (i + j) = true) →
    runNodesSeq mkInv oracle nodes i =
      (.error "CommandFailed", (nodes.take (k + 1)).map mkInv) := by
  intro nodes
  induction nodes with
  | nil => intro i k hk; simp at hk
  | cons node rest ih =>
    intro i k hk hfail hok
    cases k with
    | zero =>
      have h0 : oracle i = false := by simpa using hfail
      rw [runNodesSeq, if_neg (by simp [h0])]
      rfl
    | succ m =>
      have h0 : oracle i = true := by simpa using hok 0 (Nat.succ_pos m)
      rw [runNodesSeq, if_pos h0,
        ih (i + 1) m (by simpa using Nat.lt_of_succ_lt_succ hk)
          (by rw [show i + 1 + m = i + (m + 1) from by omega]; exact hfail)
          (fun j hj => by
            have hh := hok (j + 1) (Nat.succ_lt_succ hj)
            rw [show i + 1 + j = i + (j + 1) from by omega]
            exact hh)]
      rfl

/-- C6: `Cluster::start` issues one start invocation per owned node,
sequentially in node-list (creation) order — the model is the sequential
`for … await?` loop itself, so no two invocations overlap — and aborts at
the first node whose invocation fails, with exactly the nodes up to and
including the failing one attempted (`take (k+1)`) and the rest never
attempted; `Cluster::init` behaves the same way for node initialization
after its cluster-create invocation. -/
theorem cluster_start_init_claim (c : Cluster) (opts : Option (List NodeStartOption))
    (oracle : Nat → Bool) :
    ((∀ j, j < c.nodes.length → oracle j = true) →
      c.start opts oracle = (.ok (), c.nodes.map (fun n => ("ccm", n.start_args opts))) ∧
      c.init true oracle =
        (.ok (), ("ccm", c.create_args) :: c.nodes.map (fun n => ("ccm", n.init_args)))) ∧
    (∀ k, k < c.nodes.length → oracle k = false → (∀ j, j < k → oracle j = true) →
      c.start opts oracle =
        (.error "CommandFailed", (c.nodes.take (k + 1)).map (fun n => ("ccm", n.start_args opts))) ∧
      c.init true oracle =
        (.error "CommandFailed",
          ("ccm", c.create_args) :: (c.nodes.take (k + 1)).map (fun n => ("ccm", n.init_args)))) := by
  constructor
  · intro h
    constructor
    · exact runNodesSeq_all_ok _ oracle c.nodes 0
        (fun j hj => by rw [Nat.zero_add]; exact h j hj)
    · show (let r := runNodesSeq _ oracle c.nodes 0; (r.1, ("ccm", c.create_args) :: r.2)) = _
      rw [runNodesSeq_all_ok _ oracle c.nodes 0
        (fun j hj => by rw [Nat.zero_add]; exact h j hj)]
  · intro k hk hfail hok
    constructor
    · exact runNodesSeq_first_fail _ oracle c.nodes 0 k hk
        (by rw [Nat.zero_add]; exact hfail)
        (fun j hj => by rw [Nat.zero_add]; exact hok j hj)
    · show (let r := runNodesSeq _ oracle c.nodes 0; (r.1, ("ccm", c.create_args) :: r.2)) = _
      rw [runNodesSeq_first_fail _ oracle c.nodes 0 k hk
        (by rw [Nat.zero_add]; exact hfail)
        (fun j hj => by rw [Nat.zero_add]; exact hok j hj)]

theorem sniffLoop_spec (used : List String) : ∀ (cands : List (Nat × Nat)),
    (∀ p, sniffLoop used cands = .ok p →
      ∃ l₁ l₂, cands.map (fun ab => ipPrefixStr ab.1 ab.2) = l₁ ++ p :: l₂ ∧
        used.contains p = false ∧ ∀ q ∈ l₁, used.contains q = true) ∧
    (sniffLoop used cands = .error () ↔
      ∀ ab ∈ cands, used.contains (ipPrefixStr ab.1 ab.2) = true) := by
  intro cands
  induction cands with
  | nil =>
    constructor
    · intro p hp
      exact absurd hp (by simp [sniffLoop])
    · simp [sniffLoop]
  | cons ab rest ih =>
    by_cases hu : used.contains (ipPrefixStr ab.1 ab.2) = true
    · constructor
      · intro p hp
        rw [sniffLoop, if_pos hu] at hp
        obtain ⟨l₁, l₂, heq, hnot, hall⟩ := ih.1 p hp
        refine ⟨ipPrefixStr ab.1 ab.2 :: l₁, l₂, ?_, hnot, ?_⟩
        · simp [heq]
        · intro q hqmem
          rcases List.mem_cons.mp hqmem with rfl | hq
          · exact hu
          · exact hall q hq
      · rw [sniffLoop, if_pos hu]
        rw [ih.2]
        constructor
        · intro h ab' hmem'
          rcases List.mem_cons.mp hmem' with rfl | hmem
          · exact hu
          · exact h ab' hmem
        · intro h ab' hmem
          exact h ab' (List.mem_cons_of_mem _ hmem)
    · constructor
      · intro p hp
        rw [sniffLoop, if_neg hu] at hp
        obtain rfl : ipPrefixStr ab.1 ab.2 = p := by simpa using hp
        exact ⟨[], rest.map (fun ab => ipPrefixStr ab.1 ab.2), by simp, by simpa using hu,
          by simp⟩
      · rw [sniffLoop, if_neg hu]
        constructor
        · intro h
          exact absurd h (by simp)
        · intro h
          exact absurd (h ab (List.mem_cons_self _ _)) hu

theorem sniffCandidates_lex_sorted :
    List.Pairwise (fun p q : Nat × Nat => p.1 < q.1 ∨ (p.1 = q.1 ∧ p.2 < q.2))
      sniffCandidates := by
  rw [sniffCandidates]
  rw [List.pairwise_bind]
  refine ⟨?_, ?_⟩
  · intro a _
    rw [List.pairwise_map]
    refine List.Pairwise.imp ?_ (List.pairwise_lt_range 255)
    intro x y h
    right
    exact ⟨rfl, by omega⟩
  · refine List.Pairwise.imp ?_ (List.pairwise_lt_range 255)
    intro a₁ a₂ hlt x hx y hy
    rw [List.mem_map] at hx hy
    obtain ⟨b₁, _, rfl⟩ := hx
    obtain ⟨b₂, _, rfl⟩ := hy
    left
    simpa using hlt

/-- C4: node-id allocation returns the lowest id in `1..=255` not already
used by a node of the requested datacenter (first disjunct), and the
sentinel 256 when all of 1-255 are occupied there (second disjunct); with
nodes `{1, 2, 4}` present it returns 3, with a full datacenter it returns
256, and ids used by other datacenters do not matter (a cluster whose
nodes all live in datacenter 2 still hands out 1 for datacenter 1). -/
theorem get_free_node_id_lowest_unused :
    (∀ (c : Cluster) (datacenter_id : Int),
      (1 ≤ c.get_free_node_id datacenter_id ∧ c.get_free_node_id datacenter_id ≤ 255 ∧
       usedInDc c.nodes datacenter_id (c.get_free_node_id datacenter_id) = false ∧
       ∀ k : Int, 1 ≤ k → k < c.get_free_node_id datacenter_id →
         usedInDc c.nodes datacenter_id k = true) ∨
      (c.get_free_node_id datacenter_id = 256 ∧
       ∀ k : Int, 1 ≤ k → k ≤ 255 → usedInDc c.nodes datacenter_id k = true)) ∧
    (mkCluster exNodes124).get_free_node_id 1 = 3 ∧
    (mkCluster fullDcNodes).get_free_node_id 1 = 256 ∧
    (mkCluster [mkTestNode 2 1, mkTestNode 2 2]).get_free_node_id 1 = 1 :=
  ⟨get_free_node_id_char, by rfl, fullDc_get_free_node_id, by rfl⟩

/-- Witness for C4: the `{1, 2, 4} ↦ 3` instance extracted from the
theorem. -/
theorem get_free_node_id_lowest_unused_witness :
    (mkCluster exNodes124).get_free_node_id 1 = 3 :=
  get_free_node_id_lowest_unused.2.1

/-- C5 (amended): the address allocator (`Cluster::sniff_ip_prefix`, the
one the Topology Manager uses) scans the candidate prefixes `127.a.b.`
for second and third octets `a, b` each in `1..=255` — excluding every
prefix with a zero second or third octet, among them `127.0.0.0/24` — in
ascending lexicographic order of `(a, b)` (third conjunct), and returns
the first candidate absent from the in-use set (first conjunct, the
`l₁ ++ p :: l₂` decomposition of the scan order); it fails with the
error outcome, without panicking, exactly when all 65025 candidates are
in use (second and fourth conjuncts).  With no prefixes in use it returns
`"127.1.1."` (last conjunct), not `"127.0.1."` as claimed. -/
theorem sniff_ip_prefix_scan (used : List String) :
    (∀ p, sniff_ip_prefix used = .ok p →
      ∃ l₁ l₂, sniffCandidates.map (fun ab => ipPrefixStr ab.1 ab.2) = l₁ ++ p :: l₂ ∧
        used.contains p = false ∧ ∀ q ∈ l₁, used.contains q = true) ∧
    ( sniff_ip_prefix used = .error () ↔
      ∀ ab ∈ sniffCandidates, used.contains (ipPrefixStr ab.1 ab.2) = true) ∧
    List.Pairwise (fun p q : Nat × Nat => p.1 < q.1 ∨ (p.1 = q.1 ∧ p.2 < q.2))
      sniffCandidates ∧
    sniffCandidates.length = 65025 ∧
    sniff_ip_prefix [] = .ok "127.1.1." := by
  refine ⟨(sniffLoop_spec used sniffCandidates).1, (sniffLoop_spec used sniffCandidates).2,
    sniffCandidates_lex_sorted, ?_, by rfl⟩
  rw [sniffCandidates, List.length_bind]
  have hfn : (List.length ∘ fun a : Nat => (List.range 255).map
      (fun b => (a + 1, b + 1))) = fun _ : Nat => 255 := by
    funext a
    simp
  rw [hfn, List.map_const', List.sum_replicate, smul_eq_mul, List.length_range]

/-- Witness for C5's theorem at the concrete empty in-use set. -/
theorem sniff_ip_prefix_scan_witness : sniff_ip_prefix [] = .ok "127.1.1." :=
  (sniff_ip_prefix_scan []).2.2.2.2

/-- Counterexample to C5 as stated: with no prefixes in use,
`Cluster::sniff_ip_prefix` — the allocator the cluster actually calls —
returns the `127.1.1.` prefix, not the claimed `127.0.1` prefix (its loops
start both octets at 1, excluding far more than `127.0.0.0/24`).  The
third conjunct shows where the claimed value comes from: the dead helper
`find_available_iprange`, which `Cluster` never calls, would return
`127.0.1.0`. -/
theorem sniff_ip_prefix_counterexample :
    sniff_ip_prefix [] = .ok "127.1.1." ∧ ("127.1.1." : String) ≠ "127.0.1." ∧
    find_available_iprange [] = .ok (127, 0, 1, 0) :=
  ⟨by rfl, by decide, by rfl⟩

/-- C10: `Cluster::add_node` is total and never checks the sentinel: for
every cluster state it appends one node constructed with whatever id the
allocation returned and returns that node, its name being
`node_<dc>_<id>` and its ports derived from the id; in particular on a
datacenter whose ids 1-255 are all occupied the node gets id 256, name
`node_<dc>_256`, and ports derived from 256. -/
theorem add_node_never_fails (c : Cluster) (dcOpt : Option Int) :
    ((c.add_node dcOpt).1.nodes = c.nodes ++ [(c.add_node dcOpt).2]) ∧
    ((c.add_node dcOpt).2.node_id = c.get_free_node_id (dcOpt.getD 1)) ∧
    ((c.add_node dcOpt).2.name =
      "node_" ++ toString (dcOpt.getD 1) ++ "_" ++
        toString ((c.add_node dcOpt).2.node_id)) ∧
    ((c.add_node dcOpt).2.jmx_port =
      7000 + (dcOpt.getD 1) * 100 + (c.add_node dcOpt).2.node_id) ∧
    ((c.add_node dcOpt).2.debug_port =
      2000 + (dcOpt.getD 1) * 100 + (c.add_node dcOpt).2.node_id) ∧
    ((∀ k : Int, 1 ≤ k → k ≤ 255 → usedInDc c.nodes (dcOpt.getD 1) k = true) →
      (c.add_node dcOpt).2.node_id = 256 ∧
      (c.add_node dcOpt).2.name = "node_" ++ toString (dcOpt.getD 1) ++ "_256") := by
  refine ⟨rfl, rfl, rfl, rfl, rfl, ?_⟩
  intro hall
  have hid : c.get_free_node_id (dcOpt.getD 1) = 256 := by
    rcases get_free_node_id_char c (dcOpt.getD 1) with ⟨h1, h2, h3, _⟩ | ⟨h1, _⟩
    · have hused := hall _ h1 h2
      rw [h3] at hused
      exact Bool.noConfusion hused
    · exact h1
  have hid' : (c.add_node dcOpt).2.node_id = 256 := hid
  refine ⟨hid', ?_⟩
  show "node_" ++ toString (dcOpt.getD 1) ++ "_" ++
      toString (c.get_free_node_id (dcOpt.getD 1)) = _
  rw [hid, String.append_assoc]
  rfl

/-- Witness for C10 on a full datacenter: the appended node has id 256 and
name `node_1_256`. -/
theorem add_node_never_fails_witness :
    ((mkCluster fullDcNodes).add_node (some 1)).2.node_id = 256 ∧
    ((mkCluster fullDcNodes).add_node (some 1)).2.name = "node_1_256" := by
  have h := (add_node_never_fails (mkCluster fullDcNodes) (some 1)).2.2.2.2.2
    (fun k h1 h2 => fullDcNodes_all_used k h1 h2)
  exact ⟨h.1, h.2.trans (by rfl)⟩

/-- Witness for C3 at concrete clusters: a successful `destroy` on a live
cluster sets the flag and returns success, and `stop` on an
already-destroyed cluster is a no-op success issuing nothing. -/
theorem destroyed_flag_props_witness :
    ((mkCluster []).destroy true true).2.1.destroyed = (false || true) ∧
    ((mkCluster []).destroy true true).1 = .ok () ∧
    ({ mkCluster [] with destroyed := true } : Cluster).stop true =
      (.ok (), { mkCluster [] with destroyed := true }, []) :=
  ⟨(destroyed_flag_props (mkCluster []) true true none).2.2.1,
   ((destroyed_flag_props (mkCluster []) true true none).2.2.2.2.1 rfl rfl).1,
   ((destroyed_flag_props { mkCluster [] with destroyed := true } true true none).2.1 rfl).1⟩

/-- Witness for C6 on a three-node cluster whose second start invocation
fails: only the first two nodes are attempted. -/
theorem cluster_start_init_claim_witness :
    (mkCluster exNodes124).start none (fun i => !(i == 1)) =
      (.error "CommandFailed",
        ((mkCluster exNodes124).nodes.take 2).map
          (fun n => ("ccm", n.start_args none))) :=
  ((cluster_start_init_claim (mkCluster exNodes124) none (fun i => !(i == 1))).2 1
    (by decide) (by rfl)
    (fun j hj => by
      have hj0 : j = 0 := by omega
      subst hj0
      rfl)).1

end CcmBinding

